import Mathlib

/-!
Shallow embedding of `autotrader/brokers/alpaca/broker.py` (the Alpaca broker
adapter of the AutoTrader repository).

The adapter's public methods either forward parameters to the vendor client
(`self.alpaca`) or reshape vendor responses into local records.  We model:

* venue calls (`submit_order`, `cancel_order`, `close_position`, `get_asset`)
  as an explicit trace of `VenueCall` values emitted by each method;
* Python `print` output as a list of printed strings;
* Python exceptions as an `Except PyError` result channel
  (`NotImplementedError` is the only exception the source ever raises);
* machine floats as exact rationals, with Python's `round` (banker's
  rounding, round-half-to-even) made explicit;
* vendor response payloads (`alpaca.list_orders`, `alpaca.get_positions`)
  as lists of record structures, and Python dict construction
  (`d[k] = v` in a loop) as a fold of pointwise function updates.
-/

namespace AutoTraderAlpaca

/-- Venue-side asset metadata as consumed by `_get_precision`:
`fractionable` and the exponent of `Decimal(min_trade_increment).as_tuple()`. -/
structure Asset where
  fractionable : Bool
  mtiExp : Int
  deriving DecidableEq

/-- One remote call to the vendor client `self.alpaca`. -/
inductive VenueCall where
  | getAsset (instrument : String)
  | submitOrder (symbol : String) (qty : ℚ) (side : String) (otype : String)
      (tif : String) (limitPrice : Option ℚ) (stopPrice : Option ℚ)
  | cancelOrder (id : String)
  | closePosition (symbol : String)
  deriving DecidableEq

/-- The Broker's environment: venue metadata per instrument, and the
venue-side status of each order id (never consulted by the source). -/
structure Broker where
  assets : String → Asset
  order_status : String → String

/-- Observable effects of one method call: the venue calls made, in order,
and the strings printed. -/
structure Effects where
  calls : List VenueCall
  printed : List String
  deriving DecidableEq

/-- Python exceptions relevant to the adapter.  `unsupportedOrderType` is the
error the specification's taxonomy prescribes; the source never raises it. -/
inductive PyError where
  | unsupportedOrderType
  | notImplementedError (msg : String)
  deriving DecidableEq

/-- The generic `Order` object fields read by the adapter. -/
structure PyOrder where
  instrument : String
  direction : ℤ
  size : ℚ
  order_type : String
  order_limit_price : Option ℚ
  order_stop_price : Option ℚ
  deriving DecidableEq

/-- Round a rational to the nearest integer, ties to even
(the rounding of Python's built-in `round`). -/
def roundHalfEven (q : ℚ) : ℤ :=
  let f := ⌊q⌋
  let r := q - (f : ℚ)
  if r < 1/2 then f
  else if 1/2 < r then f + 1
  else if f % 2 = 0 then f else f + 1

/-- Python's `round(x, n)` on exact rationals. -/
def pyRound (x : ℚ) (n : ℕ) : ℚ := (roundHalfEven (x * 10 ^ n) : ℚ) / 10 ^ n

/-- `Broker._get_precision`: queries `alpaca.get_asset` and derives the
decimal precision; non-fractionable instruments get precision 0. -/
def _get_precision (b : Broker) (instrument : String) : List VenueCall × ℕ :=
  let asset := b.assets instrument
  ([VenueCall.getAsset instrument],
    if asset.fractionable then asset.mtiExp.natAbs else 0)

/-- `Broker.check_trade_size`: rounds the requested units to the
instrument's precision. -/
def check_trade_size (b : Broker) (instrument : String) (units : ℚ) :
    List VenueCall × ℚ :=
  let p := _get_precision b instrument
  (p.1, pyRound units p.2)

/-- `'buy' if order.direction > 0 else 'sell'` (used by every submit path). -/
def directionToSide (d : ℤ) : String := if 0 < d then "buy" else "sell"

/-- `'direction': 1 if order.side == 'buy' else -1` (used by `get_orders`
and `get_trades` when mapping venue responses back). -/
def sideToDirection (side : String) : ℤ := if side = "buy" then 1 else -1

/-- `Broker._place_market_order`. -/
def _place_market_order (b : Broker) (o : PyOrder) : Effects :=
  let s := check_trade_size b o.instrument o.size
  { calls := s.1 ++ [VenueCall.submitOrder o.instrument ((o.direction : ℚ) * s.2)
      (directionToSide o.direction) "trailing_stop" "gtc" none none],
    printed := [] }

/-- `Broker._place_stop_limit_order`. -/
def _place_stop_limit_order (b : Broker) (o : PyOrder) : Effects :=
  let s := check_trade_size b o.instrument o.size
  { calls := s.1 ++ [VenueCall.submitOrder o.instrument ((o.direction : ℚ) * s.2)
      (directionToSide o.direction) "stop_limit" "gtc"
      o.order_limit_price o.order_stop_price],
    printed := [] }

/-- `Broker._place_limit_order`. -/
def _place_limit_order (b : Broker) (o : PyOrder) : Effects :=
  let s := check_trade_size b o.instrument o.size
  { calls := s.1 ++ [VenueCall.submitOrder o.instrument ((o.direction : ℚ) * s.2)
      (directionToSide o.direction) "limit" "gtc"
      o.order_limit_price none],
    printed := [] }

/-- `Broker._close_position`. -/
def _close_position (_b : Broker) (o : PyOrder) : Effects :=
  { calls := [VenueCall.closePosition o.instrument], printed := [] }

/-- `Broker.place_order`: dispatches on `order.order_type`; the final `else`
branch prints "Order type not recognised." and returns normally. -/
def place_order (b : Broker) (o : PyOrder) : Effects × Except PyError Unit :=
  if o.order_type = "market" then (_place_market_order b o, Except.ok ())
  else if o.order_type = "stop-limit" then (_place_stop_limit_order b o, Except.ok ())
  else if o.order_type = "limit" then (_place_limit_order b o, Except.ok ())
  else if o.order_type = "close" then (_close_position b o, Except.ok ())
  else ({ calls := [], printed := ["Order type not recognised."] }, Except.ok ())

/-- `Broker.cancel_order`: unconditionally forwards to
`alpaca.cancel_order(order_id)`. -/
def cancel_order (_b : Broker) (order_id : String) : Effects :=
  { calls := [VenueCall.cancelOrder order_id], printed := [] }

/-- Terminal order statuses, per the specification's state machine. -/
def terminal_statuses : List String := ["filled", "cancelled", "rejected"]

/-- `Broker.get_trade_details`: raises `NotImplementedError("Not implemented")`
before any venue call (the venue query below the raise is commented out). -/
def get_trade_details (_trade_ID : String) : List VenueCall × Except PyError Unit :=
  ([], Except.error (PyError.notImplementedError "Not implemented"))

/-- One venue order record as returned by `alpaca.list_orders`, with the
fields the adapter reads. -/
structure VenueOrder where
  id : String
  otype : String
  status : String
  side : String
  symbol : String
  qty : ℚ
  created_at : Int
  stop_price : Option ℚ
  limit_price : Option ℚ
  filled_at : Int
  filled_avg_price : ℚ
  filled_qty : ℚ
  unrealized_pl : ℚ
  deriving DecidableEq

/-- The trade dictionary built inside `Broker.get_trades`. -/
structure TradeRec where
  instrument : String
  time_filled : Int
  fill_price : ℚ
  size : ℚ
  id : String
  direction : ℤ
  status : String
  unrealized_PL : ℚ
  order_stop_price : Option ℚ
  order_limit_price : Option ℚ
  deriving DecidableEq

/-- The `new_trade` dictionary of `get_trades`, for one filled venue order. -/
def mkTrade (t : VenueOrder) : TradeRec :=
  { instrument := t.symbol
    time_filled := t.filled_at
    fill_price := t.filled_avg_price
    size := t.filled_qty
    id := t.id
    direction := sideToDirection t.side
    status := t.status
    unrealized_PL := t.unrealized_pl
    order_stop_price := t.stop_price
    order_limit_price := t.limit_price }

/-- The order dictionary built inside `Broker.get_orders`. -/
structure OrderRec where
  id : String
  status : String
  order_type : String
  order_stop_price : Option ℚ
  order_limit_price : Option ℚ
  direction : ℤ
  order_time : Int
  instrument : String
  size : ℚ
  deriving DecidableEq

/-- The `new_order` dictionary of `get_orders`, for one open venue order. -/
def mkOrder (o : VenueOrder) : OrderRec :=
  { id := o.id
    status := "open"
    order_type := o.otype
    order_stop_price := o.stop_price
    order_limit_price := o.limit_price
    direction := sideToDirection o.side
    order_time := o.created_at
    instrument := o.symbol
    size := o.qty }

/-- Python dict assignment `d[k] = v`, on dictionaries modelled as
partial maps. -/
def dictInsert {β : Type} (acc : String → Option β) (k : String) (v : β) :
    String → Option β :=
  fun q => if q = k then some v else acc q

/-- One iteration of the `get_trades` loop:
`if trade.status == 'filled': open_trades[trade.id] = Trade(new_trade)`. -/
def trades_step (acc : String → Option TradeRec) (t : VenueOrder) :
    String → Option TradeRec :=
  if t.status = "filled" then dictInsert acc t.id (mkTrade t) else acc

/-- `Broker.get_trades`, as a function of the venue response list. -/
def get_trades (resp : List VenueOrder) : String → Option TradeRec :=
  resp.foldl trades_step (fun _ => none)

/-- One iteration of the `get_orders` loop:
`orders[order.id] = Order._from_dict(new_order)`. -/
def orders_step (acc : String → Option OrderRec) (o : VenueOrder) :
    String → Option OrderRec :=
  dictInsert acc o.id (mkOrder o)

/-- `Broker.get_orders`, as a function of the venue response list. -/
def get_orders (resp : List VenueOrder) : String → Option OrderRec :=
  resp.foldl orders_step (fun _ => none)

/-- One venue position record as returned by `alpaca.get_positions`. -/
structure VenuePosition where
  symbol : String
  side : String
  qty : ℚ
  unrealized_pl : ℚ
  deriving DecidableEq

/-- The local `Position` record built by `get_positions.map_position`. -/
structure Position where
  instrument : String
  long_units : ℚ
  long_PL : ℚ
  long_margin : Option ℚ
  short_units : ℚ
  short_PL : ℚ
  deriving DecidableEq

/-- `np.sign` on exact rationals. -/
def npSign (q : ℚ) : ℚ := if 0 < q then 1 else if q < 0 then -1 else 0

/-- The inner `map_position` of `Broker.get_positions`. -/
def map_position (p : VenuePosition) : Position :=
  let side := if p.side = "long" then "long" else "short"
  let qty := npSign p.qty
  let pl := npSign p.unrealized_pl
  { instrument := p.symbol
    long_units := if side = "long" then qty else 0
    long_PL := if side = "long" then pl else 0
    long_margin := none
    short_units := if side = "short" then qty else 0
    short_PL := if side = "short" then pl else 0 }

/-- One iteration of the `get_positions` loop:
`open_positions[pos.symbol] = map_position(pos)`. -/
def positions_step (acc : String → Option Position) (p : VenuePosition) :
    String → Option Position :=
  dictInsert acc p.symbol (map_position p)

/-- `Broker.get_positions` (instrument = None), as a function of the venue
response list. -/
def get_positions (resp : List VenuePosition) : String → Option Position :=
  resp.foldl positions_step (fun _ => none)

/-- Number of `submit_order` venue calls in a trace. -/
def count_submits (cs : List VenueCall) : ℕ :=
  cs.countP fun c =>
    match c with
    | VenueCall.submitOrder _ _ _ _ _ _ _ => true
    | _ => false

/-- The venue-call trace of two consecutive `place_order` calls with the
same order (the source keeps no record of past submissions, so the second
call runs identically to the first). -/
def place_order_twice (b : Broker) (o : PyOrder) : List VenueCall :=
  (place_order b o).1.calls ++ (place_order b o).1.calls

/-- A concrete broker environment whose only instrument is non-fractionable
and whose orders are venue-side "open". -/
def bEx : Broker :=
  { assets := fun _ => { fractionable := false, mtiExp := 0 }
    order_status := fun _ => "open" }

/-- A concrete broker environment whose orders are venue-side "filled". -/
def bFilled : Broker :=
  { assets := fun _ => { fractionable := false, mtiExp := 0 }
    order_status := fun _ => "filled" }

/-- An order with an unrecognized order type. -/
def oBad : PyOrder :=
  { instrument := "AAPL"
    direction := 1
    size := 1
    order_type := "bracket"
    order_limit_price := none
    order_stop_price := none }

/-- A concrete market order for 10.456 units. -/
def oMkt : PyOrder :=
  { instrument := "AAPL"
    direction := 1
    size := 10.456
    order_type := "market"
    order_limit_price := none
    order_stop_price := none }

/-- A concrete filled venue order. -/
def tF : VenueOrder :=
  { id := "a"
    otype := "market"
    status := "filled"
    side := "buy"
    symbol := "AAPL"
    qty := 5
    created_at := 0
    stop_price := none
    limit_price := none
    filled_at := 7
    filled_avg_price := 101
    filled_qty := 5
    unrealized_pl := 3 }

/-- A concrete non-filled (canceled) venue order. -/
def tO : VenueOrder :=
  { id := "b"
    otype := "limit"
    status := "canceled"
    side := "sell"
    symbol := "MSFT"
    qty := 2
    created_at := 0
    stop_price := none
    limit_price := none
    filled_at := 0
    filled_avg_price := 0
    filled_qty := 0
    unrealized_pl := 0 }

/-- A concrete closed-orders venue response. -/
def respEx : List VenueOrder := [tF, tO]

/-- A concrete long venue position. -/
def p1 : VenuePosition :=
  { symbol := "AAPL", side := "long", qty := 5, unrealized_pl := -2 }

/-- A concrete positions venue response. -/
def respP : List VenuePosition := [p1]

/-- A rational that is a sign: one of -1, 0, 1. -/
def isSignValue (q : ℚ) : Prop := q = -1 ∨ q = 0 ∨ q = 1

/-! ### Rounding lemmas -/

lemma roundHalfEven_intCast (z : ℤ) : roundHalfEven (z : ℚ) = z := by
  simp only [roundHalfEven, Int.floor_intCast, sub_self]
  norm_num

lemma pyRound_mul_pow (x : ℚ) (n : ℕ) :
    pyRound x n * 10 ^ n = (roundHalfEven (x * 10 ^ n) : ℚ) := by
  have h10 : ((10 : ℚ) ^ n) ≠ 0 := pow_ne_zero _ (by norm_num)
  unfold pyRound
  rw [div_mul_cancel₀ _ h10]

lemma pyRound_idem (x : ℚ) (n : ℕ) : pyRound (pyRound x n) n = pyRound x n := by
  have h10 : ((10 : ℚ) ^ n) ≠ 0 := pow_ne_zero _ (by norm_num)
  unfold pyRound
  rw [div_mul_cancel₀ _ h10, roundHalfEven_intCast]

lemma pyRound_ten456 : pyRound (10.456 : ℚ) 0 = 10 := by
  have hf : ⌊(10.456 : ℚ) * 10 ^ 0⌋ = 10 := by
    rw [Int.floor_eq_iff]
    norm_num
  simp only [pyRound, roundHalfEven, hf]
  norm_num

/-! ### Claims about ordering and cancellation -/

/-- C1 (counterexample): placing an order with the unrecognized type
"bracket" makes no venue call, prints "Order type not recognised.", and
returns normally — it does not fail with an `UnsupportedOrderType` error. -/
theorem unsupported_type_counterexample :
    (place_order bEx oBad).1.calls = [] ∧
    (place_order bEx oBad).1.printed = ["Order type not recognised."] ∧
    (place_order bEx oBad).2 = Except.ok () ∧
    (place_order bEx oBad).2 ≠ Except.error PyError.unsupportedOrderType := by
  refine ⟨rfl, rfl, rfl, ?_⟩
  intro h
  rw [show (place_order bEx oBad).2 = Except.ok () from rfl] at h
  exact Except.noConfusion h

/-- C1 (amended): for every order whose order_type is not one of the
recognized types, `place_order` makes no venue call, but instead of raising
it prints "Order type not recognised." and returns normally, silently
dropping the order. -/
theorem unsupported_type_prints (b : Broker) (o : PyOrder)
    (h1 : o.order_type ≠ "market") (h2 : o.order_type ≠ "stop-limit")
    (h3 : o.order_type ≠ "limit") (h4 : o.order_type ≠ "close") :
    place_order b o
      = ({ calls := [], printed := ["Order type not recognised."] },
         Except.ok ()) := by
  simp [place_order, h1, h2, h3, h4]

theorem unsupported_type_prints_witness :
    oBad.order_type ≠ "market" ∧
    place_order bEx oBad
      = ({ calls := [], printed := ["Order type not recognised."] },
         Except.ok ()) :=
  ⟨by decide,
    unsupported_type_prints bEx oBad (by decide) (by decide) (by decide)
      (by decide)⟩

/-- C2: for every market order, `place_order` submits to the venue with
venue order type "trailing_stop", side "buy" when direction > 0 and "sell"
otherwise, and time_in_force "gtc" (after a `get_asset` metadata call). -/
theorem market_order_submission (b : Broker) (o : PyOrder)
    (ht : o.order_type = "market") :
    (place_order b o).2 = Except.ok () ∧
    (place_order b o).1.calls
      = [VenueCall.getAsset o.instrument,
         VenueCall.submitOrder o.instrument
           ((o.direction : ℚ) * (check_trade_size b o.instrument o.size).2)
           (if 0 < o.direction then "buy" else "sell")
           "trailing_stop" "gtc" none none] := by
  constructor
  · simp [place_order, ht]
  · simp [place_order, ht, _place_market_order, check_trade_size,
      _get_precision, directionToSide]

theorem market_order_submission_witness :
    oMkt.order_type = "market" ∧
    ((place_order bEx oMkt).2 = Except.ok () ∧
      (place_order bEx oMkt).1.calls
        = [VenueCall.getAsset oMkt.instrument,
           VenueCall.submitOrder oMkt.instrument
             ((oMkt.direction : ℚ)
               * (check_trade_size bEx oMkt.instrument oMkt.size).2)
             (if 0 < oMkt.direction then "buy" else "sell")
             "trailing_stop" "gtc" none none]) :=
  ⟨rfl, market_order_submission bEx oMkt rfl⟩

/-- C3 (counterexample): calling `place_order` twice with the same market
order submits to the venue twice, not at most once. -/
theorem place_twice_counterexample :
    ¬ count_submits (place_order_twice bEx oMkt) ≤ 1 := by
  decide

/-- C3 (amended): the source has no resubmission protection: calling
`place_order` twice with the same (market) order submits to the venue once
per call, i.e. twice in total. -/
theorem place_twice_submits_twice (b : Broker) (o : PyOrder)
    (ht : o.order_type = "market") :
    count_submits (place_order_twice b o) = 2 := by
  simp [place_order_twice, place_order, ht, _place_market_order,
    check_trade_size, _get_precision, count_submits]

theorem place_twice_submits_twice_witness :
    oMkt.order_type = "market" ∧
    count_submits (place_order_twice bEx oMkt) = 2 :=
  ⟨rfl, place_twice_submits_twice bEx oMkt rfl⟩

/-- C4: for a non-fractionable instrument the resolved precision is 0, and
a market order for 10.456 units is submitted with size rounded to 10. -/
theorem market_order_nonfractionable_rounds (b : Broker) (o : PyOrder)
    (hf : (b.assets o.instrument).fractionable = false)
    (ht : o.order_type = "market") (hs : o.size = 10.456)
    (hd : o.direction = 1) :
    (_get_precision b o.instrument).2 = 0 ∧
    (place_order b o).1.calls
      = [VenueCall.getAsset o.instrument,
         VenueCall.submitOrder o.instrument 10 "buy" "trailing_stop" "gtc"
           none none] := by
  have hp : (_get_precision b o.instrument).2 = 0 := by
    simp [_get_precision, hf]
  refine ⟨hp, ?_⟩
  simp [place_order, ht, _place_market_order, check_trade_size, hp, hs, hd,
    directionToSide, _get_precision, hf, pyRound_ten456]

theorem market_order_nonfractionable_rounds_witness :
    (bEx.assets oMkt.instrument).fractionable = false ∧
    ((_get_precision bEx oMkt.instrument).2 = 0 ∧
      (place_order bEx oMkt).1.calls
        = [VenueCall.getAsset oMkt.instrument,
           VenueCall.submitOrder oMkt.instrument 10 "buy" "trailing_stop"
             "gtc" none none]) :=
  ⟨rfl, market_order_nonfractionable_rounds bEx oMkt rfl rfl rfl rfl⟩

/-- C5: `check_trade_size` is idempotent, and its result never has more
decimal places than the instrument's resolved precision (multiplying by
10 ^ precision gives an integer). -/
theorem check_trade_size_idem_and_precision :
    ∀ (b : Broker) (instrument : String) (units : ℚ),
      (check_trade_size b instrument
          (check_trade_size b instrument units).2).2
        = (check_trade_size b instrument units).2
      ∧ ∃ z : ℤ, (check_trade_size b instrument units).2
            * 10 ^ (_get_precision b instrument).2 = (z : ℚ) := by
  intro b i u
  exact ⟨pyRound_idem u _, ⟨_, pyRound_mul_pow u _⟩⟩

/-- C6 (counterexample): even for an order whose venue-side status is
"filled" (terminal), `cancel_order` still issues a venue cancel — the
source performs no terminal-status check. -/
theorem cancel_terminal_counterexample :
    bFilled.order_status "ord1" ∈ terminal_statuses ∧
    (cancel_order bFilled "ord1").calls ≠ [] ∧
    (cancel_order bFilled "ord1").calls = [VenueCall.cancelOrder "ord1"] := by
  refine ⟨by simp [bFilled, terminal_statuses], ?_, rfl⟩
  intro h
  rw [show (cancel_order bFilled "ord1").calls
      = [VenueCall.cancelOrder "ord1"] from rfl] at h
  exact List.noConfusion h

/-- C6 (amended): `cancel_order` unconditionally forwards the id to the
venue's cancel operation, for any order regardless of its status; it never
raises locally and performs no terminal-status check. -/
theorem cancel_order_unconditional :
    ∀ (b : Broker) (order_id : String),
      cancel_order b order_id
        = { calls := [VenueCall.cancelOrder order_id], printed := [] } :=
  fun _ _ => rfl

/-- C8: direction ↦ side ↦ direction is the identity on {+1, -1};
direction > 0 maps to "buy" and otherwise to "sell"; side "buy" maps back
to +1 and any other side to -1. -/
theorem side_direction_roundtrip (d : ℤ) (s : String)
    (hd : d = 1 ∨ d = -1) (hs : s ≠ "buy") :
    sideToDirection (directionToSide d) = d ∧
    (0 < d → directionToSide d = "buy") ∧
    (d ≤ 0 → directionToSide d = "sell") ∧
    sideToDirection "buy" = 1 ∧ sideToDirection s = -1 := by
  rcases hd with rfl | rfl <;>
    exact ⟨by decide, by decide, by decide, by decide,
      by simp [sideToDirection, hs]⟩

theorem side_direction_roundtrip_witness :
    ((1 : ℤ) = 1 ∨ (1 : ℤ) = -1) ∧ ("sell" : String) ≠ "buy" ∧
    (sideToDirection (directionToSide 1) = 1 ∧
      ((0 : ℤ) < 1 → directionToSide 1 = "buy") ∧
      ((1 : ℤ) ≤ 0 → directionToSide 1 = "sell") ∧
      sideToDirection "buy" = 1 ∧ sideToDirection "sell" = -1) :=
  ⟨Or.inl rfl, by decide,
    side_direction_roundtrip 1 "sell" (Or.inl rfl) (by decide)⟩

/-- C10: `get_trade_details` raises `NotImplementedError` unconditionally,
before any venue call. -/
theorem get_trade_details_raises :
    ∀ trade_ID : String,
      get_trade_details trade_ID
        = ([], Except.error (PyError.notImplementedError "Not implemented")) :=
  fun _ => rfl

/-! ### Dictionary-fold lemmas for the response-mapping loops -/

lemma positions_foldl_some :
    ∀ (resp : List VenuePosition) (acc : String → Option Position)
      (k : String) (pos : Position),
      resp.foldl positions_step acc k = some pos →
      (∃ p ∈ resp, pos = map_position p) ∨ acc k = some pos := by
  intro resp
  induction resp with
  | nil => intro acc k pos h; exact Or.inr h
  | cons p rest ih =>
    intro acc k pos h
    rw [List.foldl_cons] at h
    rcases ih _ k pos h with ⟨q, hq, rfl⟩ | hacc
    · exact Or.inl ⟨q, List.mem_cons_of_mem _ hq, rfl⟩
    · unfold positions_step dictInsert at hacc
      by_cases hk : k = p.symbol
      · simp [hk] at hacc
        exact Or.inl ⟨p, List.mem_cons_self _ _, hacc.symm⟩
      · simp only [if_neg hk] at hacc
        exact Or.inr hacc

lemma npSign_cases (q : ℚ) : npSign q = -1 ∨ npSign q = 0 ∨ npSign q = 1 := by
  unfold npSign
  split_ifs <;> simp

lemma map_position_fields (p : VenuePosition) :
    (p.side = "long" →
      (map_position p).long_units = npSign p.qty ∧
      (map_position p).long_PL = npSign p.unrealized_pl ∧
      (map_position p).short_units = 0 ∧ (map_position p).short_PL = 0) ∧
    (p.side ≠ "long" →
      (map_position p).short_units = npSign p.qty ∧
      (map_position p).short_PL = npSign p.unrealized_pl ∧
      (map_position p).long_units = 0 ∧ (map_position p).long_PL = 0) := by
  constructor <;> intro h <;> simp [map_position, h]

lemma map_position_sign (p : VenuePosition) :
    isSignValue (map_position p).long_units ∧
    isSignValue (map_position p).long_PL ∧
    isSignValue (map_position p).short_units ∧
    isSignValue (map_position p).short_PL := by
  have hq := npSign_cases p.qty
  have hp := npSign_cases p.unrealized_pl
  by_cases h : p.side = "long" <;>
    simp [map_position, h, isSignValue] <;> tauto

lemma trades_foldl_untouched :
    ∀ (resp : List VenueOrder) (acc : String → Option TradeRec) (k : String),
      (∀ t ∈ resp, ¬(t.status = "filled" ∧ t.id = k)) →
      resp.foldl trades_step acc k = acc k := by
  intro resp
  induction resp with
  | nil => intro acc k _; rfl
  | cons u rest ih =>
    intro acc k h
    rw [List.foldl_cons, ih _ k (fun t ht => h t (List.mem_cons_of_mem _ ht))]
    unfold trades_step dictInsert
    by_cases hs : u.status = "filled"
    · have hne : k ≠ u.id := fun hk =>
        h u (List.mem_cons_self _ _) ⟨hs, hk.symm⟩
      simp [hs, hne]
    · simp [hs]

lemma trades_foldl_hit :
    ∀ (resp : List VenueOrder) (acc : String → Option TradeRec)
      (t : VenueOrder),
      t ∈ resp → t.status = "filled" → (resp.map VenueOrder.id).Nodup →
      resp.foldl trades_step acc t.id = some (mkTrade t) := by
  intro resp
  induction resp with
  | nil => intro acc t ht _ _; exact absurd ht (List.not_mem_nil t)
  | cons u rest ih =>
    intro acc t ht hf hnd
    rw [List.map_cons, List.nodup_cons] at hnd
    obtain ⟨hu, hnrest⟩ := hnd
    rw [List.foldl_cons]
    rcases List.mem_cons.mp ht with rfl | htr
    · have hnone : ∀ v ∈ rest, ¬(v.status = "filled" ∧ v.id = t.id) := by
        intro v hv hc
        exact hu (hc.2 ▸ List.mem_map_of_mem VenueOrder.id hv)
      rw [trades_foldl_untouched rest _ t.id hnone]
      unfold trades_step dictInsert
      simp [hf]
    · exact ih _ t htr hf hnrest

/-- C7: every position produced by `get_positions` holds only signs
(values in {-1, 0, 1}) in its units and P/L fields, with the fields of the
opposite side set to 0; `map_position` puts the sign of the venue quantity
and unrealized P/L on the reported side. -/
theorem positions_hold_signs (resp : List VenuePosition) (k : String)
    (pos : Position) (p : VenuePosition) :
    (get_positions resp k = some pos →
      isSignValue pos.long_units ∧ isSignValue pos.long_PL ∧
      isSignValue pos.short_units ∧ isSignValue pos.short_PL ∧
      ((pos.long_units = 0 ∧ pos.long_PL = 0) ∨
        (pos.short_units = 0 ∧ pos.short_PL = 0))) ∧
    (p.side = "long" →
      (map_position p).long_units = npSign p.qty ∧
      (map_position p).long_PL = npSign p.unrealized_pl ∧
      (map_position p).short_units = 0 ∧ (map_position p).short_PL = 0) ∧
    (p.side ≠ "long" →
      (map_position p).short_units = npSign p.qty ∧
      (map_position p).short_PL = npSign p.unrealized_pl ∧
      (map_position p).long_units = 0 ∧ (map_position p).long_PL = 0) := by
  refine ⟨?_, (map_position_fields p).1, (map_position_fields p).2⟩
  intro h
  rcases positions_foldl_some resp _ k pos h with ⟨q, _, rfl⟩ | habs
  · have hs := map_position_sign q
    have hf := map_position_fields q
    by_cases hside : q.side = "long"
    · have hz := hf.1 hside
      exact ⟨hs.1, hs.2.1, hs.2.2.1, hs.2.2.2, Or.inr ⟨hz.2.2.1, hz.2.2.2⟩⟩
    · have hz := hf.2 hside
      exact ⟨hs.1, hs.2.1, hs.2.2.1, hs.2.2.2, Or.inl ⟨hz.2.2.1, hz.2.2.2⟩⟩
  · exact absurd habs (by simp)

theorem positions_hold_signs_witness :
    isSignValue (map_position p1).long_units ∧
    isSignValue (map_position p1).long_PL ∧
    isSignValue (map_position p1).short_units ∧
    isSignValue (map_position p1).short_PL ∧
    (((map_position p1).long_units = 0 ∧ (map_position p1).long_PL = 0) ∨
      ((map_position p1).short_units = 0 ∧ (map_position p1).short_PL = 0)) :=
  (positions_hold_signs respP "AAPL" (map_position p1) p1).1 rfl

/-- C9: for a venue response with distinct order ids, `get_trades` has an
entry keyed by an order's id exactly when that order's status is "filled",
and the entry carries the fill price, filled size, and fill time from the
venue response. -/
theorem trades_are_fills (resp : List VenueOrder)
    (hnd : (resp.map VenueOrder.id).Nodup) (t : VenueOrder) (ht : t ∈ resp) :
    (t.status = "filled" →
      get_trades resp t.id = some (mkTrade t) ∧
      (mkTrade t).fill_price = t.filled_avg_price ∧
      (mkTrade t).size = t.filled_qty ∧
      (mkTrade t).time_filled = t.filled_at) ∧
    (t.status ≠ "filled" → get_trades resp t.id = none) := by
  constructor
  · intro hf
    exact ⟨trades_foldl_hit resp _ t ht hf hnd, rfl, rfl, rfl⟩
  · intro hnf
    unfold get_trades
    apply trades_foldl_untouched
    intro u hu hc
    have huid : u = t := List.inj_on_of_nodup_map hnd hu ht hc.2
    exact hnf (huid ▸ hc.1)

theorem trades_are_fills_witness :
    (respEx.map VenueOrder.id).Nodup ∧
    (get_trades respEx tF.id = some (mkTrade tF) ∧
      (mkTrade tF).fill_price = tF.filled_avg_price ∧
      (mkTrade tF).size = tF.filled_qty ∧
      (mkTrade tF).time_filled = tF.filled_at) :=
  ⟨by decide,
    (trades_are_fills respEx (by decide) tF (List.mem_cons_self _ _)).1 rfl⟩

end AutoTraderAlpaca
